import Mathlib

/-!
Verification of the RAMPART real-time ingestion / configuration engine.

The definitions below are shallow embeddings of the JavaScript sources:
  * server/config.js        (modifyConfig, modifySamplesAndBarcodes,
                             updateReferencesSeen, updateWhichReferencesAreDisplayed,
                             the initial reference panel of getInitialConfig)
  * server/socket.js        (sendData, sendConfig, initialConnection)
  * src/components/Header/PipelineLog.js (reducer, getStatusFromType)
  * the histogram helpers   (getHistogramMaxes)
  * rampart.js              (global.filesSeen) together with the spec's
                            description of the startup scan / file watcher
                            (those two modules are not part of the sources).

JavaScript objects become structures, in-place mutation becomes functional
update, and socket emissions become explicit event lists.  Colour assignment
(colours.js) carries no information relevant to any property below and the
colour fields are omitted from the structures.
-/

namespace Rampart

/-! ## Labels (server/config.js) -/

def UNMAPPED_LABEL : String := "unmapped"
def UNASSIGNED_LABEL : String := "unassigned"

/-! ## Pipeline log client reducer (src/components/Header/PipelineLog.js)

The client keeps a `Map` from pipeline uid to a run state holding the list
of received messages, the run name and a status string.  We embed the map
as an association list whose `set` keeps the position of an existing key
(exactly the JS `Map.set` semantics) and appends fresh keys at the end. -/

structure PipelineMsg where
  uid : Nat
  name : String
  type : String
  time : Nat
  content : String
deriving DecidableEq

structure RunState where
  messages : List PipelineMsg
  name : String
  status : String
deriving DecidableEq

abbrev PipelineState := List (Nat × RunState)

def mapGet (st : PipelineState) (uid : Nat) : Option RunState :=
  (st.find? (fun p => p.1 == uid)).map (fun p => p.2)

def mapSet (st : PipelineState) (uid : Nat) (v : RunState) : PipelineState :=
  if st.any (fun p => p.1 == uid) then
    st.map (fun p => if p.1 == uid then (uid, v) else p)
  else
    st ++ [(uid, v)]

/-- Map message type to status (PipelineLog.js lines 104-111). -/
def getStatusFromType (type : String) : String :=
  if type = "init" ∨ type = "success" then "online"
  else if type = "start" then "running"
  else if type = "error" then "error"
  else if type = "closed" then "offline"
  else "unknown"

/-- The client reducer (PipelineLog.js lines 91-102): look up the run for
`msg.uid` (or create a fresh one with status "unknown"), push the message,
and move to `getStatusFromType msg.type` unless that is "unknown". -/
def reducer (state : PipelineState) (msg : PipelineMsg) : PipelineState :=
  let pipelineState :=
    match mapGet state msg.uid with
    | some ps => ps
    | none => { messages := [], name := msg.name, status := "unknown" }
  let pipelineState :=
    { pipelineState with messages := pipelineState.messages ++ [msg] }
  let pipelineState :=
    if getStatusFromType msg.type ≠ "unknown" then
      { pipelineState with status := getStatusFromType msg.type }
    else pipelineState
  mapSet state msg.uid pipelineState

/-- The statuses the client reducer can actually produce. -/
def pipelineStatuses : List String := ["unknown", "online", "running", "error", "offline"]

/-! ## Histogram helpers (getHistogramMaxes)

JS computes `y` by reducing `Math.max` over the values starting from
`-Infinity` (embedded as the bottom element of `WithBot Int`) and then reads
`data[data.length - 1].key`; on the empty array that element is `undefined`
and the `.key` access throws, embedded as `none`. -/

structure HistEntry where
  key : Int
  value : Int
deriving DecidableEq

def getHistogramMaxes (data : List HistEntry) : Option (Int × WithBot Int) :=
  let y : WithBot Int := (data.map (fun el => (el.value : WithBot Int))).foldl max ⊥
  match data.getLast? with
  | none => none
  | some last => some (last.key, y)

/-! ## Configuration data model (server/config.js)

`config.run.samples` is a list of samples, each holding a name, a
description and a list of barcodes.  `config.genome.referencePanel` is a
list of reference-panel entries.  `config.display` holds the display
options touched by `modifyConfig`; the filter object is embedded as a
key/value list, replaced wholesale exactly as in the source. -/

structure RefEntry where
  name : String
  description : String
  display : Bool
deriving DecidableEq

structure Sample where
  name : String
  description : String
  barcodes : List String
deriving DecidableEq

abbrev Filters := List (String × Int)

structure DisplayConfig where
  logYAxis : Bool
  relativeReferenceMapping : Bool
  filters : Filters
deriving DecidableEq

structure RunConfig where
  samples : List Sample
deriving DecidableEq

structure GenomeConfig where
  referencePanel : List RefEntry
deriving DecidableEq

structure Config where
  run : RunConfig
  genome : GenomeConfig
  display : DisplayConfig
deriving DecidableEq

/-! ## modifySamplesAndBarcodes (server/config.js lines 541-565) -/

/-- Step 1 of `modifySamplesAndBarcodes`: remove already-set barcodes which
match those supplied (`sample.barcodes.filter(b => !newBarcodes.includes(b))`). -/
def removeBarcodesFromSamples (samples : List Sample) (newBarcodes : List String) : List Sample :=
  samples.map (fun sample =>
    { sample with barcodes := sample.barcodes.filter (fun b => !(newBarcodes.contains b)) })

/-- Step 2 body of `modifySamplesAndBarcodes`: push the barcode onto every
sample whose name matches; if none matched, append a fresh sample. -/
def addBarcodeToSamples (samples : List Sample) (newBarcode newSampleName : String) : List Sample :=
  if samples.any (fun sample => sample.name == newSampleName) then
    samples.map (fun sample =>
      if sample.name = newSampleName then
        { sample with barcodes := sample.barcodes ++ [newBarcode] }
      else sample)
  else
    samples ++ [{ name := newSampleName, description := "", barcodes := [newBarcode] }]

/-- Modify the samples to reflect new barcode/sample-name pairs
(`newBarcodesToSamples` has format `[[bc, name], ...]`); step 3 removes
samples without any barcodes.  The JS function mutates `config.run.samples`;
here the samples list is passed and returned explicitly. -/
def modifySamplesAndBarcodes (samples : List Sample)
    (newBarcodesToSamples : List (String × String)) : List Sample :=
  let newBarcodes := newBarcodesToSamples.map Prod.fst
  let afterRemoval := removeBarcodesFromSamples samples newBarcodes
  let afterAddition := newBarcodesToSamples.foldl
    (fun acc p => addBarcodeToSamples acc p.1 p.2) afterRemoval
  afterAddition.filter (fun s => !s.barcodes.isEmpty)

/-- Number of samples whose barcode list holds barcode `b`. -/
def occurrences (samples : List Sample) (b : String) : Nat :=
  samples.countP (fun s => s.barcodes.contains b)

/-- Each barcode belongs to (i.e. occurs in the barcode list of) at most one
sample. -/
def eachBarcodeInAtMostOneSample (samples : List Sample) : Prop :=
  ∀ b, occurrences samples b ≤ 1

/-- Two samples share no barcode and have different names (the invariant
relation maintained pairwise by `modifySamplesAndBarcodes`). -/
def samplesSeparated (s t : Sample) : Prop :=
  (∀ b ∈ s.barcodes, b ∉ t.barcodes) ∧ s.name ≠ t.name

/-! ## modifyConfig (server/config.js lines 415-447)

The client-supplied action object is duck-typed: the source only checks
`hasOwnProperty` for each key, embedded as `Option` fields.  The side
effects (calling `datastore.changeReadFilters`, `datastore.recalcSampleData`,
`CONFIG_UPDATED`, `NOTIFY_CLIENT_DATA_UPDATED`) are returned as an explicit
effects record; `dataUpdated` records `dataHasChanged` which gates the
data notification. -/

structure ConfigAction where
  logYAxis : Option Bool
  relativeReferenceMapping : Option Bool
  filters : Option Filters
  barcodeToSamples : Option (List (String × String))
deriving DecidableEq

structure ModifyEffects where
  changeReadFilters : Bool
  recalcSampleData : Bool
  configUpdated : Bool
  dataUpdated : Bool
deriving DecidableEq

def modifyConfig (config : Config) (action : ConfigAction) : Config × ModifyEffects :=
  let config :=
    match action.logYAxis with
    | some v => { config with display := { config.display with logYAxis := v } }
    | none => config
  let config :=
    match action.relativeReferenceMapping with
    | some v => { config with display := { config.display with relativeReferenceMapping := v } }
    | none => config
  let config :=
    match action.filters with
    | some f => { config with display := { config.display with filters := f } }
    | none => config
  let config :=
    match action.barcodeToSamples with
    | some pairs =>
      { config with run := { config.run with
          samples := modifySamplesAndBarcodes config.run.samples pairs } }
    | none => config
  (config,
   { changeReadFilters := action.filters.isSome,
     recalcSampleData := action.barcodeToSamples.isSome,
     configUpdated := true,
     dataUpdated := action.filters.isSome || action.barcodeToSamples.isSome })

/-! ## updateReferencesSeen (server/config.js lines 498-516) -/

/-- The forEach body of `updateReferencesSeen`: a reference that is not the
"unmapped" label and is not already in the panel (as recorded in the
`referencesInConfig` set computed once, up front) is pushed onto the panel
and onto the `changes` list. -/
def seenStep (referencesInConfig : List String)
    (acc : List RefEntry × List String) (ref : String) : List RefEntry × List String :=
  if ref ≠ UNMAPPED_LABEL ∧ ref ∉ referencesInConfig then
    (acc.1 ++ [{ name := ref, description := "to do", display := false }], acc.2 ++ [ref])
  else acc

/-- Update the panel with newly seen references; returns the new panel and
the `changes` list.  The caller fires the config-updated notification iff
`changes` is nonempty (`if (changes.length) ... CONFIG_UPDATED()`). -/
def updateReferencesSeen (panel : List RefEntry) (referencesSeen : List String) :
    List RefEntry × List String :=
  let referencesInConfig := panel.map (fun x => x.name)
  referencesSeen.foldl (seenStep referencesInConfig) (panel, [])

/-- The entries a call to `updateReferencesSeen` appends, in order. -/
def newRefEntries (referencesInConfig : List String) (referencesSeen : List String) :
    List RefEntry :=
  referencesSeen.filterMap (fun ref =>
    if ref ≠ UNMAPPED_LABEL ∧ ref ∉ referencesInConfig then
      some { name := ref, description := "to do", display := false }
    else none)

/-! ## updateWhichReferencesAreDisplayed (server/config.js lines 518-534) -/

/-- Per-entry body of `updateWhichReferencesAreDisplayed`: toggle the display
flag to agree with membership in `refsToDisplay`, reporting whether the
entry changed. -/
def displayStep (refsToDisplay : List String) (refInfo : RefEntry) : RefEntry × Bool :=
  if refInfo.display ∧ refInfo.name ∉ refsToDisplay then
    ({ refInfo with display := false }, true)
  else if ¬ refInfo.display ∧ refInfo.name ∈ refsToDisplay then
    ({ refInfo with display := true }, true)
  else (refInfo, false)

/-- Update display flags; the Bool result records `changed`, which gates the
config-updated notification. -/
def updateWhichReferencesAreDisplayed (panel : List RefEntry) (refsToDisplay : List String) :
    List RefEntry × Bool :=
  let results := panel.map (displayStep refsToDisplay)
  (results.map Prod.fst, results.any Prod.snd)

/-- The reference panel installed by `getInitialConfig` (server/config.js
lines 262-266), before any read has been processed. -/
def initialReferencePanel : List RefEntry :=
  [{ name := UNMAPPED_LABEL,
     description := "Reads that didn't map to any reference",
     display := true }]

/-- The operations of the running server that touch the reference panel. -/
inductive PanelOp where
  | seen (refs : List String)
  | displayed (refs : List String)

def applyPanelOp (panel : List RefEntry) (op : PanelOp) : List RefEntry :=
  match op with
  | .seen refs => (updateReferencesSeen panel refs).1
  | .displayed refs => (updateWhichReferencesAreDisplayed panel refs).1

/-! ## Datastore snapshot and the socket layer (server/socket.js)

`server/datastore.js` is not among the sources; `getDataForClient` is
modelled from the spec.  Socket emissions become an explicit event list. -/

structure ReadRecord where
  barcode : String
  reference : String
  startCoord : Nat
  mappedLength : Nat
  readLength : Nat
  time : Nat
deriving DecidableEq

structure Datastore where
  records : List ReadRecord
deriving DecidableEq

structure TemporalPoint where
  time : Nat
  mappedCount : Nat
  processedCount : Nat
deriving DecidableEq

structure CombinedData where
  temporal : List TemporalPoint
  mappedCount : Nat
  processedCount : Nat
deriving DecidableEq

structure ClientData where
  combinedData : CombinedData
  dataPerSample : List (String × CombinedData)
deriving DecidableEq

/-- Modelled from the spec: the sample a barcode is attributed to — "a read
whose barcode has no mapping is attributed to a reserved `unassigned`
sample" (spec section 3). -/
def sampleFor (config : Config) (barcode : String) : String :=
  match config.run.samples.find? (fun s => s.barcodes.contains barcode) with
  | some s => s.name
  | none => UNASSIGNED_LABEL

/-- Modelled from the spec: the cumulative temporal series (spec section
4.4) — for each observed timestamp, the mapped and processed counts of all
records up to it, a monotonically non-decreasing series. -/
def temporalSeries (records : List ReadRecord) : List TemporalPoint :=
  (((records.map (fun r => r.time)).dedup).insertionSort (· ≤ ·)).map (fun t =>
    { time := t,
      mappedCount := (records.filter (fun r => r.time ≤ t)).countP
        (fun r => r.reference != UNMAPPED_LABEL),
      processedCount := (records.filter (fun r => r.time ≤ t)).length })

/-- Modelled from the spec: the aggregate over a record set —
`processedCount` counts every record, `mappedCount` those whose reference is
not the "unmapped" sentinel (spec sections 3 and 4.4). -/
def aggregate (records : List ReadRecord) : CombinedData :=
  { temporal := temporalSeries records,
    mappedCount := records.countP (fun r => r.reference != UNMAPPED_LABEL),
    processedCount := records.length }

/-- Modelled from the spec: `server/datastore.js` is not among the sources.
Spec section 4.4: `snapshot()` returns an immutable view
`{combinedData, dataPerSample}`, or the sentinel "no data yet" (the JS value
`false`, embedded as `none`) if zero records have been ingested. -/
def getDataForClient (config : Config) (ds : Datastore) : Option ClientData :=
  if ds.records.isEmpty then none
  else
    let sampleNames := (ds.records.map (fun r => sampleFor config r.barcode)).dedup
    some { combinedData := aggregate ds.records,
           dataPerSample := sampleNames.map (fun n =>
             (n, aggregate (ds.records.filter (fun r => sampleFor config r.barcode == n)))) }

/-- One socket emission (`global.io.emit`). -/
inductive SocketEvent where
  | infoMessage (msg : String)
  | dataEvent (payload : ClientData)
  | configEvent (payload : Config)
deriving DecidableEq

/-- sendData (server/socket.js lines 22-35): when the datastore query yields
the sentinel, emit only the "No data yet" info message; otherwise emit an
info message when the temporal series is nonempty (reading the last point)
and then the data event carrying the whole query result. -/
def sendData (config : Config) (ds : Datastore) : List SocketEvent :=
  match getDataForClient config ds with
  | none => [SocketEvent.infoMessage "No data yet"]
  | some data =>
    (if data.combinedData.temporal.length ≠ 0 then
      [SocketEvent.infoMessage
        ("new data (t=" ++
          toString (data.combinedData.temporal.getLastD
            { time := 0, mappedCount := 0, processedCount := 0 }).time ++
          "s, " ++ toString data.combinedData.mappedCount ++ " mapped, " ++
          toString data.combinedData.processedCount ++ " processed)")]
    else []) ++ [SocketEvent.dataEvent data]

/-- sendConfig (server/socket.js lines 42-46). -/
def sendConfig (config : Config) : List SocketEvent :=
  [SocketEvent.infoMessage "New config", SocketEvent.configEvent config]

/-- initialConnection (server/socket.js lines 54-58): a just-connected
client is sent the current config and then the current data. -/
def initialConnection (config : Config) (ds : Datastore) : List SocketEvent :=
  sendConfig config ++ sendData config ds

/-! ## File watcher seen-set (rampart.js line 26 and spec sections 3, 4.1)

`global.filesSeen` is created in rampart.js; the startup scan
(server/startUp.js) and the live watcher (server/watchBasecalledFiles.js)
are not among the sources and are modelled from the spec. -/

structure WatcherState where
  filesSeen : List String
  ingested : List String
deriving DecidableEq

/-- Modelled from the spec: "Every reported file's basename is recorded in a
durable-for-the-process-lifetime seen-set; re-appearance of the same
basename is not re-emitted" (spec section 4.1).  A basename not yet in the
seen-set is recorded there and its records are ingested; a basename already
seen is ignored. -/
def reportFile (st : WatcherState) (basename : String) : WatcherState :=
  if basename ∈ st.filesSeen then st
  else { filesSeen := st.filesSeen ++ [basename], ingested := st.ingested ++ [basename] }

/-- Modelled from the spec: the exhaustive startup scan over pre-existing
files followed by live watching (spec sections 4.1 and 8), both feeding the
same process-lifetime seen-set. -/
def runWatcher (startupFiles liveFiles : List String) : WatcherState :=
  (startupFiles ++ liveFiles).foldl reportFile { filesSeen := [], ingested := [] }

/-- The pipeline-log client state after processing a message sequence,
starting from the initial empty `Map` of `useReducer`. -/
def pipelineStateOf (msgs : List PipelineMsg) : PipelineState :=
  msgs.foldl reducer []

end Rampart

namespace Rampart

/-! ### Folding max over WithBot Int (the JS reduce with Math.max from -Infinity) -/

theorem le_foldl_max_init (l : List (WithBot Int)) :
    ∀ init : WithBot Int, init ≤ l.foldl max init := by
  induction l with
  | nil => intro init; exact le_refl _
  | cons b t ih =>
    intro init
    exact le_trans (le_max_left init b) (ih (max init b))

theorem le_foldl_max_of_mem (l : List (WithBot Int)) :
    ∀ init : WithBot Int, ∀ a ∈ l, a ≤ l.foldl max init := by
  induction l with
  | nil => intro _ a ha; exact absurd ha (List.not_mem_nil a)
  | cons b t ih =>
    intro init a ha
    rcases List.mem_cons.mp ha with rfl | ha
    · exact le_trans (le_max_right init a) (le_foldl_max_init t (max init a))
    · exact ih (max init b) a ha

theorem foldl_max_eq_init_or_mem (l : List (WithBot Int)) :
    ∀ init : WithBot Int, l.foldl max init = init ∨ l.foldl max init ∈ l := by
  induction l with
  | nil => intro init; exact Or.inl rfl
  | cons b t ih =>
    intro init
    rcases ih (max init b) with h | h
    · rcases max_choice init b with hm | hm
      · exact Or.inl (by rw [List.foldl_cons, h, hm])
      · exact Or.inr (by rw [List.foldl_cons, h, hm]; exact List.mem_cons_self b t)
    · exact Or.inr (List.mem_cons_of_mem b h)

/-- C10: `getHistogramMaxes` is defined only for non-empty input: on the
empty list the access `data[data.length - 1].key` fails (embedded: the
result is `none`), so non-emptiness is an implicit precondition; on every
non-empty list it returns the pair of the last element's key and the
maximum of the value fields (the `Math.max` reduce from `-Infinity`). -/
theorem C10_getHistogramMaxes_defined_iff_nonempty (data : List HistEntry) :
    (getHistogramMaxes ([] : List HistEntry) = none) ∧
    (data ≠ [] →
      ∃ last y, data.getLast? = some last ∧
        getHistogramMaxes data = some (last.key, y) ∧
        (∀ el ∈ data, (el.value : WithBot Int) ≤ y) ∧
        (∃ el ∈ data, (el.value : WithBot Int) = y)) := by
  constructor
  · rfl
  · intro hne
    rcases List.getLast?_isSome.mpr hne |> Option.isSome_iff_exists.mp with ⟨last, hlast⟩
    refine ⟨last, (data.map (fun el => (el.value : WithBot Int))).foldl max ⊥, hlast, ?_, ?_, ?_⟩
    · unfold getHistogramMaxes
      rw [hlast]
    · intro el hel
      exact le_foldl_max_of_mem _ ⊥ _ (List.mem_map_of_mem _ hel)
    · rcases foldl_max_eq_init_or_mem (data.map (fun el => (el.value : WithBot Int))) ⊥ with h | h
      · exfalso
        rcases List.exists_mem_of_ne_nil data hne with ⟨el, hel⟩
        have hle := le_foldl_max_of_mem _ ⊥ _ (List.mem_map_of_mem (fun el => (el.value : WithBot Int)) hel)
        rw [h] at hle
        exact absurd (le_bot_iff.mp hle) (WithBot.coe_ne_bot)
      · rcases List.mem_map.mp h with ⟨el, hel, helv⟩
        exact ⟨el, hel, helv⟩

theorem C10_witness :
    ((([⟨3, 7⟩] : List HistEntry)) ≠ []) ∧
    (∃ last y, ([⟨3, 7⟩] : List HistEntry).getLast? = some last ∧
      getHistogramMaxes [⟨3, 7⟩] = some (last.key, y) ∧
      (∀ el ∈ ([⟨3, 7⟩] : List HistEntry), (el.value : WithBot Int) ≤ y) ∧
      (∃ el ∈ ([⟨3, 7⟩] : List HistEntry), (el.value : WithBot Int) = y)) :=
  ⟨by simp, (C10_getHistogramMaxes_defined_iff_nonempty [⟨3, 7⟩]).2 (by simp)⟩

/-! ### The file watcher seen-set -/

theorem reportFile_preserves (st : WatcherState) (b : String)
    (hnd : st.ingested.Nodup) (hsub : ∀ x ∈ st.ingested, x ∈ st.filesSeen) :
    (reportFile st b).ingested.Nodup ∧
    ∀ x ∈ (reportFile st b).ingested, x ∈ (reportFile st b).filesSeen := by
  unfold reportFile
  split
  · exact ⟨hnd, hsub⟩
  case isFalse h =>
    constructor
    · rw [List.nodup_append]
      refine ⟨hnd, List.nodup_singleton b, ?_⟩
      intro x hx hxb
      rw [List.mem_singleton] at hxb
      exact h (hxb ▸ hsub x hx)
    · intro x hx
      rcases List.mem_append.mp hx with hx | hx
      · exact List.mem_append_left _ (hsub x hx)
      · exact List.mem_append_right _ hx

theorem foldl_reportFile_preserves (files : List String) :
    ∀ st : WatcherState, st.ingested.Nodup → (∀ x ∈ st.ingested, x ∈ st.filesSeen) →
      (files.foldl reportFile st).ingested.Nodup := by
  induction files with
  | nil => intro st hnd _; exact hnd
  | cons f rest ih =>
    intro st hnd hsub
    rcases reportFile_preserves st f hnd hsub with ⟨hnd', hsub'⟩
    exact ih (reportFile st f) hnd' hsub'

/-- C8: ingestion is at-most-once per physical file basename — across the
startup scan followed by live watching, every basename's records enter the
ingested sequence at most once, because each reported basename is recorded
in the process-lifetime seen-set. -/
theorem C8_at_most_once_per_basename (startupFiles liveFiles : List String) (b : String) :
    (runWatcher startupFiles liveFiles).ingested.count b ≤ 1 := by
  have hnd : (runWatcher startupFiles liveFiles).ingested.Nodup :=
    foldl_reportFile_preserves (startupFiles ++ liveFiles)
      { filesSeen := [], ingested := [] } List.nodup_nil (by intro x hx; exact absurd hx (List.not_mem_nil x))
  exact List.nodup_iff_count_le_one.mp hnd b

/-! ### modifyConfig -/

/-- C1: an action holding a `filters` property replaces the active filter
set wholesale and invokes the Datastore full recompute `changeReadFilters`;
one holding `barcodeToSamples` invokes `recalcSampleData`; in either case
the data notification fires afterwards, and an action with neither property
triggers no Datastore recompute and no data notification (the config
notification always fires). -/
theorem C1_modifyConfig_recompute_and_notify (config : Config) (action : ConfigAction) :
    (∀ f, action.filters = some f →
      (modifyConfig config action).1.display.filters = f ∧
      (modifyConfig config action).2.changeReadFilters = true ∧
      (modifyConfig config action).2.dataUpdated = true) ∧
    (∀ pairs, action.barcodeToSamples = some pairs →
      (modifyConfig config action).1.run.samples
          = modifySamplesAndBarcodes config.run.samples pairs ∧
      (modifyConfig config action).2.recalcSampleData = true ∧
      (modifyConfig config action).2.dataUpdated = true) ∧
    (action.filters = none → action.barcodeToSamples = none →
      (modifyConfig config action).2.changeReadFilters = false ∧
      (modifyConfig config action).2.recalcSampleData = false ∧
      (modifyConfig config action).2.dataUpdated = false) ∧
    (modifyConfig config action).2.configUpdated = true := by
  obtain ⟨ly, rr, fi, bc⟩ := action
  cases ly <;> cases rr <;> cases fi <;> cases bc <;>
    simp [modifyConfig]

theorem C1_witness :
    ((modifyConfig ⟨⟨[]⟩, ⟨[]⟩, ⟨false, false, []⟩⟩
        ⟨none, none, some [("maxReadLength", 600)], none⟩).1.display.filters
      = [("maxReadLength", 600)] ∧
     (modifyConfig ⟨⟨[]⟩, ⟨[]⟩, ⟨false, false, []⟩⟩
        ⟨none, none, some [("maxReadLength", 600)], none⟩).2.changeReadFilters = true ∧
     (modifyConfig ⟨⟨[]⟩, ⟨[]⟩, ⟨false, false, []⟩⟩
        ⟨none, none, some [("maxReadLength", 600)], none⟩).2.dataUpdated = true) ∧
    ((modifyConfig ⟨⟨[]⟩, ⟨[]⟩, ⟨false, false, []⟩⟩
        ⟨none, none, none, none⟩).2.changeReadFilters = false ∧
     (modifyConfig ⟨⟨[]⟩, ⟨[]⟩, ⟨false, false, []⟩⟩
        ⟨none, none, none, none⟩).2.recalcSampleData = false ∧
     (modifyConfig ⟨⟨[]⟩, ⟨[]⟩, ⟨false, false, []⟩⟩
        ⟨none, none, none, none⟩).2.dataUpdated = false) :=
  ⟨(C1_modifyConfig_recompute_and_notify ⟨⟨[]⟩, ⟨[]⟩, ⟨false, false, []⟩⟩
      ⟨none, none, some [("maxReadLength", 600)], none⟩).1 _ rfl,
   (C1_modifyConfig_recompute_and_notify ⟨⟨[]⟩, ⟨[]⟩, ⟨false, false, []⟩⟩
      ⟨none, none, none, none⟩).2.2.1 rfl rfl⟩

/-! ### sendData and the initial connection -/

/-- C2: when zero records have been ingested the data query returns the
sentinel and `sendData` emits exactly the informational "No data yet"
message and no data event; when records exist it emits a data event whose
payload is the full `{combinedData, dataPerSample}` view. -/
theorem C2_sendData_no_data_sentinel (config : Config) (ds : Datastore) :
    (ds.records = [] →
      getDataForClient config ds = none ∧
      sendData config ds = [SocketEvent.infoMessage "No data yet"] ∧
      ∀ d, SocketEvent.dataEvent d ∉ sendData config ds) ∧
    (ds.records ≠ [] →
      ∃ d, getDataForClient config ds = some d ∧
        d.combinedData = aggregate ds.records ∧
        SocketEvent.dataEvent d ∈ sendData config ds) := by
  constructor
  · intro h
    have hq : getDataForClient config ds = none := by
      simp [getDataForClient, h]
    refine ⟨hq, ?_, ?_⟩
    · simp [sendData, hq]
    · intro d hd
      simp [sendData, hq] at hd
  · intro h
    have hne : ds.records.isEmpty = false := by
      simpa [List.isEmpty_iff] using h
    have hq : getDataForClient config ds = some
        { combinedData := aggregate ds.records,
          dataPerSample := ((ds.records.map (fun r => sampleFor config r.barcode)).dedup).map
            (fun n => (n, aggregate (ds.records.filter
              (fun r => sampleFor config r.barcode == n)))) } := by
      simp [getDataForClient, hne]
    refine ⟨_, hq, rfl, ?_⟩
    unfold sendData
    rw [hq]
    exact List.mem_append_right _ (List.mem_singleton.mpr rfl)

theorem C2_witness :
    (getDataForClient ⟨⟨[]⟩, ⟨[]⟩, ⟨false, false, []⟩⟩ ⟨[]⟩ = none ∧
     sendData ⟨⟨[]⟩, ⟨[]⟩, ⟨false, false, []⟩⟩ ⟨[]⟩ = [SocketEvent.infoMessage "No data yet"] ∧
     ∀ d, SocketEvent.dataEvent d ∉ sendData ⟨⟨[]⟩, ⟨[]⟩, ⟨false, false, []⟩⟩ ⟨[]⟩) ∧
    (∃ d, getDataForClient ⟨⟨[]⟩, ⟨[]⟩, ⟨false, false, []⟩⟩
        ⟨[⟨"NB01", "genomeA", 100, 50, 200, 5⟩]⟩ = some d ∧
      d.combinedData = aggregate [⟨"NB01", "genomeA", 100, 50, 200, 5⟩] ∧
      SocketEvent.dataEvent d ∈ sendData ⟨⟨[]⟩, ⟨[]⟩, ⟨false, false, []⟩⟩
        ⟨[⟨"NB01", "genomeA", 100, 50, 200, 5⟩]⟩) :=
  ⟨(C2_sendData_no_data_sentinel ⟨⟨[]⟩, ⟨[]⟩, ⟨false, false, []⟩⟩ ⟨[]⟩).1 rfl,
   (C2_sendData_no_data_sentinel ⟨⟨[]⟩, ⟨[]⟩, ⟨false, false, []⟩⟩
      ⟨[⟨"NB01", "genomeA", 100, 50, 200, 5⟩]⟩).2 (by simp)⟩

/-- C7: the data-notification protocol is state-carrying — every successful
data notification carries exactly the complete current query result (the
only data event emitted is the one with the full snapshot), and a newly
connected client is sent the full config followed by the full data, so a
missed notification is recovered by the next successful one. -/
theorem C7_notifications_carry_full_snapshot (config : Config) (ds : Datastore)
    (d : ClientData) (h : getDataForClient config ds = some d) :
    SocketEvent.dataEvent d ∈ sendData config ds ∧
    (∀ d', SocketEvent.dataEvent d' ∈ sendData config ds → d' = d) ∧
    initialConnection config ds = sendConfig config ++ sendData config ds ∧
    SocketEvent.configEvent config ∈ initialConnection config ds ∧
    SocketEvent.dataEvent d ∈ initialConnection config ds := by
  have hsd : sendData config ds =
      (if d.combinedData.temporal.length ≠ 0 then
        [SocketEvent.infoMessage
          ("new data (t=" ++
            toString (d.combinedData.temporal.getLastD
              { time := 0, mappedCount := 0, processedCount := 0 }).time ++
            "s, " ++ toString d.combinedData.mappedCount ++ " mapped, " ++
            toString d.combinedData.processedCount ++ " processed)")]
      else []) ++ [SocketEvent.dataEvent d] := by
    unfold sendData
    rw [h]
  have hmem : SocketEvent.dataEvent d ∈ sendData config ds := by
    rw [hsd]
    exact List.mem_append_right _ (List.mem_singleton.mpr rfl)
  refine ⟨hmem, ?_, rfl, ?_, ?_⟩
  · intro d' hd'
    rw [hsd] at hd'
    rcases List.mem_append.mp hd' with hd' | hd'
    · split at hd' <;> simp at hd'
    · rw [List.mem_singleton] at hd'
      exact (SocketEvent.dataEvent.injEq d' d).mp hd'
  · exact List.mem_append_left _ (by simp [sendConfig])
  · exact List.mem_append_right _ hmem

theorem C7_witness :
    SocketEvent.dataEvent
        { combinedData := aggregate [⟨"NB01", "genomeA", 100, 50, 200, 5⟩],
          dataPerSample := [("unassigned", aggregate [⟨"NB01", "genomeA", 100, 50, 200, 5⟩])] }
      ∈ initialConnection ⟨⟨[]⟩, ⟨[]⟩, ⟨false, false, []⟩⟩
          ⟨[⟨"NB01", "genomeA", 100, 50, 200, 5⟩]⟩ :=
  (C7_notifications_carry_full_snapshot ⟨⟨[]⟩, ⟨[]⟩, ⟨false, false, []⟩⟩
      ⟨[⟨"NB01", "genomeA", 100, 50, 200, 5⟩]⟩ _
      (by simp [getDataForClient, sampleFor, UNASSIGNED_LABEL])).2.2.2.2

/-! ### Basic lemmas about the pipeline reducer -/

theorem getStatusFromType_mem (t : String) : getStatusFromType t ∈ pipelineStatuses := by
  unfold getStatusFromType pipelineStatuses
  split
  · simp
  · split
    · simp
    · split
      · simp
      · split <;> simp

theorem mapGet_mapSet_self (st : PipelineState) (uid : Nat) (v : RunState) :
    mapGet (mapSet st uid v) uid = some v := by
  unfold mapSet
  split
  case isTrue h =>
    induction st with
    | nil => simp at h
    | cons p rest ih =>
      by_cases hp : p.1 == uid
      · simp [mapGet, List.find?, hp]
      · simp only [List.any_cons, Bool.or_eq_true] at h
        rcases h with h | h
        · exact absurd h hp
        · simpa [mapGet, List.find?, hp] using ih h
  case isFalse h =>
    induction st with
    | nil => simp [mapGet]
    | cons p rest ih =>
      simp only [List.any_cons, Bool.or_eq_true, not_or] at h
      simpa [mapGet, List.find?, h.1] using ih h.2

theorem mem_mapSet (st : PipelineState) (uid : Nat) (v : RunState) (q : Nat × RunState)
    (hq : q ∈ mapSet st uid v) : q ∈ st ∨ q = (uid, v) := by
  unfold mapSet at hq
  split at hq
  · rcases List.mem_map.mp hq with ⟨p, hp, hpq⟩
    by_cases h : p.1 == uid
    · right; simp [h] at hpq; exact hpq.symm
    · left; simp [h] at hpq; exact hpq ▸ hp
  · rcases List.mem_append.mp hq with h | h
    · exact Or.inl h
    · right; simpa using h

theorem mapGet_mem (st : PipelineState) (uid : Nat) (rs : RunState)
    (h : mapGet st uid = some rs) : ∃ q ∈ st, q.2 = rs := by
  unfold mapGet at h
  cases hf : st.find? (fun p => p.1 == uid) with
  | none => rw [hf] at h; exact absurd h (by simp)
  | some q =>
    rw [hf] at h
    exact ⟨q, List.mem_of_find?_eq_some hf, by simpa using h⟩

/-- The reducer, written out: it stores, under `msg.uid`, the looked-up (or
fresh) run state with the message appended and the status transitioned
unless the mapping yields "unknown". -/
theorem reducer_eq (state : PipelineState) (msg : PipelineMsg) :
    reducer state msg = mapSet state msg.uid
      { messages := (match mapGet state msg.uid with
          | some ps => ps.messages
          | none => []) ++ [msg],
        name := (match mapGet state msg.uid with
          | some ps => ps.name
          | none => msg.name),
        status := if getStatusFromType msg.type ≠ "unknown" then getStatusFromType msg.type
          else (match mapGet state msg.uid with
            | some ps => ps.status
            | none => "unknown") } := by
  unfold reducer
  cases hm : mapGet state msg.uid <;>
    by_cases hc : getStatusFromType msg.type = "unknown" <;>
      simp [hm, hc]

theorem reducer_preserves_status_mem (st : PipelineState) (msg : PipelineMsg)
    (h : ∀ q ∈ st, q.2.status ∈ pipelineStatuses) :
    ∀ q ∈ reducer st msg, q.2.status ∈ pipelineStatuses := by
  intro q hq
  rw [reducer_eq] at hq
  rcases mem_mapSet _ _ _ _ hq with hmem | hEq
  · exact h q hmem
  · subst hEq
    dsimp only
    split
    · exact getStatusFromType_mem _
    · cases hm : mapGet st msg.uid with
      | none => simp [pipelineStatuses]
      | some ps =>
        rcases mapGet_mem st msg.uid ps hm with ⟨q', hq', hq2⟩
        simp only [hm]
        exact hq2 ▸ h q' hq'

theorem pipelineStateOf_status_mem (msgs : List PipelineMsg) :
    ∀ q ∈ pipelineStateOf msgs, q.2.status ∈ pipelineStatuses := by
  suffices h : ∀ (l : List PipelineMsg) (st : PipelineState),
      (∀ q ∈ st, q.2.status ∈ pipelineStatuses) →
      ∀ q ∈ l.foldl reducer st, q.2.status ∈ pipelineStatuses by
    exact h msgs [] (by intro q hq; exact absurd hq (List.not_mem_nil q))
  intro l
  induction l with
  | nil => intro st h; simpa using h
  | cons m rest ih =>
    intro st h
    exact ih _ (reducer_preserves_status_mem st m h)

/-- C5 (amended): for every sequence of pipeline messages processed by the
client status reducer, the resulting status of each run is one of
"unknown", "online", "running", "error", "offline" — the enumeration the
code actually draws from (the claim's enumeration idle / running / success /
error / closed does not occur in the reducer). -/
theorem C5_pipeline_status_enumeration (msgs : List PipelineMsg) (uid : Nat) (rs : RunState)
    (h : mapGet (pipelineStateOf msgs) uid = some rs) :
    rs.status ∈ pipelineStatuses := by
  rcases mapGet_mem _ _ _ h with ⟨q, hq, hq2⟩
  exact hq2 ▸ pipelineStateOf_status_mem msgs q hq

theorem C5_pipeline_status_enumeration_witness :
    RunState.status
        { messages := [⟨0, "annotator", "init", 0, ""⟩], name := "annotator",
          status := "online" } ∈ pipelineStatuses :=
  C5_pipeline_status_enumeration [⟨0, "annotator", "init", 0, ""⟩] 0 _ (by decide)

/-- Counterexample to C5 as stated: a single "init" message produces the
run status "online", which is not drawn from the claimed enumeration
idle / running / success / error / closed. -/
theorem C5_counterexample :
    mapGet (pipelineStateOf [⟨0, "annotator", "init", 0, ""⟩]) 0 =
      some { messages := [⟨0, "annotator", "init", 0, ""⟩], name := "annotator",
             status := "online" } ∧
    "online" ∉ (["idle", "running", "success", "error", "closed"] : List String) := by
  constructor
  · decide
  · decide

/-- C6: the message-kind-to-status mapping is total with an explicit
"unknown" fallback that performs no transition: each of the five kinds
init, start, success, error, closed yields a non-"unknown" status that the
reducer assigns to the run, and every other kind yields "unknown", leaving
the run's previous status unchanged while the message is still appended to
the run's log. -/
theorem C6_status_mapping_total_with_fallback (state : PipelineState) (msg : PipelineMsg) :
    (msg.type = "init" ∨ msg.type = "start" ∨ msg.type = "success" ∨
        msg.type = "error" ∨ msg.type = "closed" →
      getStatusFromType msg.type ≠ "unknown" ∧
      ∃ rs, mapGet (reducer state msg) msg.uid = some rs ∧
        rs.status = getStatusFromType msg.type ∧
        rs.messages = (match mapGet state msg.uid with
          | some ps => ps.messages
          | none => []) ++ [msg]) ∧
    (msg.type ≠ "init" → msg.type ≠ "start" → msg.type ≠ "success" →
        msg.type ≠ "error" → msg.type ≠ "closed" →
      getStatusFromType msg.type = "unknown" ∧
      ∃ rs, mapGet (reducer state msg) msg.uid = some rs ∧
        rs.status = (match mapGet state msg.uid with
          | some ps => ps.status
          | none => "unknown") ∧
        rs.messages = (match mapGet state msg.uid with
          | some ps => ps.messages
          | none => []) ++ [msg]) := by
  constructor
  · intro h5
    have hne : getStatusFromType msg.type ≠ "unknown" := by
      rcases h5 with h | h | h | h | h <;> rw [h] <;> decide
    refine ⟨hne, ?_⟩
    refine ⟨_, by rw [reducer_eq]; exact mapGet_mapSet_self _ _ _, ?_, rfl⟩
    dsimp only
    rw [if_pos hne]
  · intro h1 h2 h3 h4 h5
    have hun : getStatusFromType msg.type = "unknown" := by
      unfold getStatusFromType
      simp [h1, h2, h3, h4, h5]
    refine ⟨hun, ?_⟩
    refine ⟨_, by rw [reducer_eq]; exact mapGet_mapSet_self _ _ _, ?_, rfl⟩
    dsimp only
    rw [if_neg (by simp [hun])]

theorem C6_status_mapping_witness :
    (getStatusFromType "start" ≠ "unknown" ∧
     ∃ rs, mapGet (reducer [] ⟨0, "annotator", "start", 0, ""⟩) 0 = some rs ∧
       rs.status = getStatusFromType "start" ∧
       rs.messages = [⟨0, "annotator", "start", 0, ""⟩]) ∧
    getStatusFromType "flibble" = "unknown" := by
  constructor
  · have h := (C6_status_mapping_total_with_fallback [] ⟨0, "annotator", "start", 0, ""⟩).1
      (Or.inr (Or.inl rfl))
    rcases h with ⟨hne, rs, hrs, hst, hmsgs⟩
    exact ⟨hne, rs, hrs, hst, by simpa [mapGet] using hmsgs⟩
  · exact ((C6_status_mapping_total_with_fallback [] ⟨0, "annotator", "flibble", 0, ""⟩).2
      (by decide) (by decide) (by decide) (by decide) (by decide)).1

/-! ### The reference panel -/

theorem seenStep_foldl (names : List String) (refs : List String) :
    ∀ acc : List RefEntry × List String,
      refs.foldl (seenStep names) acc
        = (acc.1 ++ newRefEntries names refs,
           acc.2 ++ (newRefEntries names refs).map (fun e => e.name)) := by
  induction refs with
  | nil => intro acc; simp [newRefEntries]
  | cons r rest ih =>
    intro acc
    rw [List.foldl_cons]
    by_cases hr : r ≠ UNMAPPED_LABEL ∧ r ∉ names
    · rw [show seenStep names acc r
          = (acc.1 ++ [{ name := r, description := "to do", display := false }], acc.2 ++ [r])
        from by simp [seenStep, hr]]
      rw [ih]
      simp [newRefEntries, List.filterMap_cons, hr]
    · rw [show seenStep names acc r = acc from by simp [seenStep, hr]]
      rw [ih]
      simp [newRefEntries, List.filterMap_cons, hr]

theorem updateReferencesSeen_eq (panel : List RefEntry) (refs : List String) :
    updateReferencesSeen panel refs
      = (panel ++ newRefEntries (panel.map (fun x => x.name)) refs,
         (newRefEntries (panel.map (fun x => x.name)) refs).map (fun e => e.name)) := by
  unfold updateReferencesSeen
  rw [seenStep_foldl]
  simp

theorem mem_newRefEntries (names refs : List String) (e : RefEntry)
    (he : e ∈ newRefEntries names refs) :
    e.name ∈ refs ∧ e.name ≠ UNMAPPED_LABEL ∧ e.name ∉ names ∧
    e.description = "to do" ∧ e.display = false := by
  unfold newRefEntries at he
  rcases List.mem_filterMap.mp he with ⟨r, hr, hre⟩
  by_cases hc : r ≠ UNMAPPED_LABEL ∧ r ∉ names
  · rw [if_pos hc] at hre
    cases Option.some.inj hre
    exact ⟨hr, hc.1, hc.2, rfl, rfl⟩
  · rw [if_neg hc] at hre
    exact absurd hre (by simp)

theorem name_mem_newRefEntries (names refs : List String) (r : String)
    (hr : r ∈ refs) (hu : r ≠ UNMAPPED_LABEL) (hn : r ∉ names) :
    r ∈ (newRefEntries names refs).map (fun e => e.name) := by
  refine List.mem_map.mpr ⟨{ name := r, description := "to do", display := false }, ?_, rfl⟩
  unfold newRefEntries
  exact List.mem_filterMap.mpr ⟨r, hr, by rw [if_pos ⟨hu, hn⟩]⟩

theorem newRefEntries_eq_nil (names refs : List String)
    (h : ∀ r ∈ refs, ¬(r ≠ UNMAPPED_LABEL ∧ r ∉ names)) :
    newRefEntries names refs = [] := by
  unfold newRefEntries
  rw [List.filterMap_eq_nil_iff]
  intro r hr
  rw [if_neg (h r hr)]

/-- C4: marking references as seen is idempotent and monotone — the update
appends entries only for names not already in the panel, never removes or
alters existing entries, and a second call with the same reference set
returns the panel unchanged with an empty changes list (hence no
config-updated notification). -/
theorem C4_updateReferencesSeen_monotone_idempotent (panel : List RefEntry)
    (referencesSeen : List String) :
    ((updateReferencesSeen panel referencesSeen).1
        = panel ++ newRefEntries (panel.map (fun x => x.name)) referencesSeen) ∧
    (∀ e ∈ newRefEntries (panel.map (fun x => x.name)) referencesSeen,
        e.name ∉ panel.map (fun x => x.name)) ∧
    (updateReferencesSeen (updateReferencesSeen panel referencesSeen).1 referencesSeen
        = ((updateReferencesSeen panel referencesSeen).1, [])) := by
  refine ⟨by rw [updateReferencesSeen_eq], ?_, ?_⟩
  · intro e he
    exact (mem_newRefEntries _ _ e he).2.2.1
  · have hnil : newRefEntries
        (((updateReferencesSeen panel referencesSeen).1).map (fun x => x.name))
        referencesSeen = [] := by
      apply newRefEntries_eq_nil
      intro r hr hc
      apply hc.2
      rw [show (updateReferencesSeen panel referencesSeen).1
            = panel ++ newRefEntries (panel.map (fun x => x.name)) referencesSeen
          from by rw [updateReferencesSeen_eq]]
      rw [List.map_append]
      by_cases hpn : r ∈ panel.map (fun x => x.name)
      · exact List.mem_append_left _ hpn
      · exact List.mem_append_right _ (name_mem_newRefEntries _ _ r hr hc.1 hpn)
    rw [updateReferencesSeen_eq ((updateReferencesSeen panel referencesSeen).1) referencesSeen,
        hnil]
    simp

theorem countP_unmapped_updateReferencesSeen (panel : List RefEntry) (refs : List String) :
    ((updateReferencesSeen panel refs).1).countP (fun e => e.name == UNMAPPED_LABEL)
      = panel.countP (fun e => e.name == UNMAPPED_LABEL) := by
  rw [show (updateReferencesSeen panel refs).1
        = panel ++ newRefEntries (panel.map (fun x => x.name)) refs
      from by rw [updateReferencesSeen_eq]]
  rw [List.countP_append]
  have h0 : (newRefEntries (panel.map (fun x => x.name)) refs).countP
      (fun e => e.name == UNMAPPED_LABEL) = 0 := by
    rw [List.countP_eq_zero]
    intro e he
    have hne := (mem_newRefEntries _ _ e he).2.1
    simp [hne]
  omega

theorem countP_unmapped_updateWhich (panel : List RefEntry) (refs : List String) :
    ((updateWhichReferencesAreDisplayed panel refs).1).countP
        (fun e => e.name == UNMAPPED_LABEL)
      = panel.countP (fun e => e.name == UNMAPPED_LABEL) := by
  unfold updateWhichReferencesAreDisplayed
  dsimp only
  rw [List.map_map, List.countP_map]
  apply List.countP_congr
  intro e _
  have hname : ((displayStep refs e).1).name = e.name := by
    unfold displayStep
    split
    · rfl
    · split <;> rfl
  simp [Function.comp, hname]

theorem applyPanelOp_count (panel : List RefEntry) (op : PanelOp) :
    (applyPanelOp panel op).countP (fun e => e.name == UNMAPPED_LABEL)
      = panel.countP (fun e => e.name == UNMAPPED_LABEL) := by
  cases op with
  | seen refs => exact countP_unmapped_updateReferencesSeen panel refs
  | displayed refs => exact countP_unmapped_updateWhich panel refs

/-- C9: the reference panel always contains exactly one entry named
"unmapped": the initial panel of getInitialConfig is exactly that entry
with display true (pre-seeded before any read is ingested), and every
sequence of panel operations (updateReferencesSeen, which explicitly skips
the "unmapped" label, and updateWhichReferencesAreDisplayed, which never
adds or removes entries) preserves the count of one. -/
theorem C9_exactly_one_unmapped_entry (ops : List PanelOp) :
    initialReferencePanel
      = [{ name := UNMAPPED_LABEL,
           description := "Reads that didn't map to any reference",
           display := true }] ∧
    (ops.foldl applyPanelOp initialReferencePanel).countP
      (fun e => e.name == UNMAPPED_LABEL) = 1 := by
  refine ⟨rfl, ?_⟩
  suffices h : ∀ (l : List PanelOp) (panel : List RefEntry),
      (l.foldl applyPanelOp panel).countP (fun e => e.name == UNMAPPED_LABEL)
        = panel.countP (fun e => e.name == UNMAPPED_LABEL) by
    rw [h ops initialReferencePanel]
    decide
  intro l
  induction l with
  | nil => intro panel; rfl
  | cons op rest ih =>
    intro panel
    rw [List.foldl_cons, ih, applyPanelOp_count]

/-! ### modifySamplesAndBarcodes: the barcode partition invariant -/

theorem contains_eq_true_iff (l : List String) (b : String) :
    l.contains b = true ↔ b ∈ l := by
  simp [List.contains]

theorem modifySamplesAndBarcodes_eq (samples : List Sample)
    (pairs : List (String × String)) :
    modifySamplesAndBarcodes samples pairs
      = (pairs.foldl (fun acc p => addBarcodeToSamples acc p.1 p.2)
          (removeBarcodesFromSamples samples (pairs.map Prod.fst))).filter
            (fun s => !s.barcodes.isEmpty) := rfl

theorem pairwise_of_eachBarcode (samples : List Sample)
    (h : eachBarcodeInAtMostOneSample samples) :
    samples.Pairwise (fun s t => ∀ b ∈ s.barcodes, b ∉ t.barcodes) := by
  induction samples with
  | nil => exact List.Pairwise.nil
  | cons s l ih =>
    refine List.Pairwise.cons ?_ (ih ?_)
    · intro t ht b hbs hbt
      have h1 : s.barcodes.contains b = true := (contains_eq_true_iff _ _).mpr hbs
      have h2 : 0 < l.countP (fun u => u.barcodes.contains b) := by
        rw [List.countP_pos_iff]
        exact ⟨t, ht, (contains_eq_true_iff _ _).mpr hbt⟩
      have h3 := h b
      rw [occurrences, List.countP_cons, if_pos h1] at h3
      omega
    · intro b
      have h3 := h b
      rw [occurrences, List.countP_cons] at h3
      rw [occurrences]
      omega

theorem eachBarcode_of_pairwise (samples : List Sample)
    (h : samples.Pairwise (fun s t => ∀ b ∈ s.barcodes, b ∉ t.barcodes)) :
    eachBarcodeInAtMostOneSample samples := by
  induction samples with
  | nil => intro b; simp [occurrences]
  | cons s l ih =>
    rcases List.pairwise_cons.mp h with ⟨hhead, htail⟩
    intro b
    rw [occurrences, List.countP_cons]
    by_cases hb : s.barcodes.contains b = true
    · rw [if_pos hb]
      have h0 : l.countP (fun u => u.barcodes.contains b) = 0 := by
        rw [List.countP_eq_zero]
        intro t ht hcont
        exact hhead t ht b ((contains_eq_true_iff _ _).mp hb)
          ((contains_eq_true_iff _ _).mp hcont)
      omega
    · rw [if_neg hb]
      have hl := ih htail b
      rw [occurrences] at hl
      omega

theorem removeBarcodes_pairwise (samples : List Sample) (newBarcodes : List String)
    (h : samples.Pairwise samplesSeparated) :
    (removeBarcodesFromSamples samples newBarcodes).Pairwise samplesSeparated := by
  unfold removeBarcodesFromSamples
  rw [List.pairwise_map]
  apply h.imp
  intro a c hac
  refine ⟨?_, hac.2⟩
  intro b hb hbc
  exact hac.1 b (List.mem_of_mem_filter hb) (List.mem_of_mem_filter hbc)

theorem removeBarcodes_not_mem (samples : List Sample) (newBarcodes : List String)
    (b : String) (hb : b ∈ newBarcodes) :
    ∀ s ∈ removeBarcodesFromSamples samples newBarcodes, b ∉ s.barcodes := by
  intro s hs
  unfold removeBarcodesFromSamples at hs
  rcases List.mem_map.mp hs with ⟨t, _, rfl⟩
  intro hmem
  have hfil := List.of_mem_filter hmem
  rw [(contains_eq_true_iff newBarcodes b).mpr hb] at hfil
  simp at hfil

theorem addBarcode_pairwise (samples : List Sample) (nb nm : String)
    (h : samples.Pairwise samplesSeparated)
    (hfresh : ∀ s ∈ samples, nb ∉ s.barcodes) :
    (addBarcodeToSamples samples nb nm).Pairwise samplesSeparated := by
  unfold addBarcodeToSamples
  split
  case isTrue hany =>
    rw [List.pairwise_map]
    refine List.Pairwise.imp_of_mem (fun {a c} ha hc hac => ?_) h
    by_cases han : a.name = nm <;> by_cases hcn : c.name = nm
    · exact absurd (han.trans hcn.symm) hac.2
    · rw [if_pos han, if_neg hcn]
      refine ⟨?_, hac.2⟩
      intro b hb
      rcases List.mem_append.mp hb with hb | hb
      · exact hac.1 b hb
      · rw [List.mem_singleton] at hb
        subst hb
        exact hfresh c hc
    · rw [if_neg han, if_pos hcn]
      refine ⟨?_, hac.2⟩
      intro b hb hbc
      rcases List.mem_append.mp hbc with hbc | hbc
      · exact hac.1 b hb hbc
      · rw [List.mem_singleton] at hbc
        subst hbc
        exact hfresh a ha hb
    · rw [if_neg han, if_neg hcn]
      exact hac
  case isFalse hany =>
    rw [List.pairwise_append]
    refine ⟨h, List.pairwise_singleton _ _, ?_⟩
    intro a ha x hx
    rw [List.mem_singleton] at hx
    subst hx
    constructor
    · intro b hb hbx
      rw [List.mem_singleton] at hbx
      subst hbx
      exact hfresh a ha hb
    · intro hcontra
      apply hany
      rw [List.any_eq_true]
      exact ⟨a, ha, by simp [hcontra]⟩

theorem addBarcode_not_mem (samples : List Sample) (nb nm c : String)
    (hc : ∀ s ∈ samples, c ∉ s.barcodes) (hne : c ≠ nb) :
    ∀ s ∈ addBarcodeToSamples samples nb nm, c ∉ s.barcodes := by
  intro s hs
  unfold addBarcodeToSamples at hs
  split at hs
  · rcases List.mem_map.mp hs with ⟨t, ht, rfl⟩
    by_cases htn : t.name = nm
    · rw [if_pos htn]
      intro hmem
      rcases List.mem_append.mp hmem with hm | hm
      · exact hc t ht hm
      · rw [List.mem_singleton] at hm
        exact hne hm
    · rw [if_neg htn]
      exact hc t ht
  · rcases List.mem_append.mp hs with hm | hm
    · exact hc s hm
    · rw [List.mem_singleton] at hm
      subst hm
      intro hmem
      rw [List.mem_singleton] at hmem
      exact hne hmem

theorem foldl_addBarcode_pairwise (pairs : List (String × String)) :
    ∀ acc : List Sample,
      (pairs.map Prod.fst).Nodup →
      acc.Pairwise samplesSeparated →
      (∀ p ∈ pairs, ∀ s ∈ acc, p.1 ∉ s.barcodes) →
      (pairs.foldl (fun acc p => addBarcodeToSamples acc p.1 p.2) acc).Pairwise
        samplesSeparated := by
  induction pairs with
  | nil => intro acc _ h _; exact h
  | cons p ps ih =>
    intro acc hnd h hfresh
    rw [List.foldl_cons]
    rw [List.map_cons, List.nodup_cons] at hnd
    apply ih
    · exact hnd.2
    · exact addBarcode_pairwise acc p.1 p.2 h
        (fun s hs => hfresh p (List.mem_cons_self p ps) s hs)
    · intro q hq s hs
      refine addBarcode_not_mem acc p.1 p.2 q.1
        (fun t ht => hfresh q (List.mem_cons_of_mem p hq) t ht) ?_ s hs
      intro hqp
      exact hnd.1 (hqp ▸ List.mem_map_of_mem Prod.fst hq)

/-- C3 (amended): if in addition to the claim's preconditions (each barcode
in at most one sample; pairwise-distinct new barcodes) the sample names are
pairwise distinct, then after `modifySamplesAndBarcodes` each barcode
occurs in the barcode list of at most one sample and no sample has an
empty barcode list.  The extra name-distinctness hypothesis is forced by
the counterexample below: with duplicate sample names the new barcode is
pushed into every sample of that name. -/
theorem C3_barcode_partition_amended (samples : List Sample)
    (pairs : List (String × String))
    (hocc : eachBarcodeInAtMostOneSample samples)
    (hnames : (samples.map (fun s => s.name)).Nodup)
    (hpairs : (pairs.map Prod.fst).Nodup) :
    eachBarcodeInAtMostOneSample (modifySamplesAndBarcodes samples pairs) ∧
    ∀ s ∈ modifySamplesAndBarcodes samples pairs, s.barcodes ≠ [] := by
  have hsep : samples.Pairwise samplesSeparated := by
    have h1 := pairwise_of_eachBarcode samples hocc
    have h2 : samples.Pairwise (fun s t => s.name ≠ t.name) := List.pairwise_map.mp hnames
    exact (h1.and h2).imp (fun hab => ⟨hab.1, hab.2⟩)
  rw [modifySamplesAndBarcodes_eq]
  have hAdd : (pairs.foldl (fun acc p => addBarcodeToSamples acc p.1 p.2)
      (removeBarcodesFromSamples samples (pairs.map Prod.fst))).Pairwise
        samplesSeparated := by
    refine foldl_addBarcode_pairwise pairs _ hpairs
      (removeBarcodes_pairwise samples _ hsep) ?_
    intro p hp s hs
    exact removeBarcodes_not_mem samples _ p.1 (List.mem_map_of_mem Prod.fst hp) s hs
  have hFil : ((pairs.foldl (fun acc p => addBarcodeToSamples acc p.1 p.2)
      (removeBarcodesFromSamples samples (pairs.map Prod.fst))).filter
        (fun s => !s.barcodes.isEmpty)).Pairwise samplesSeparated :=
    List.Pairwise.sublist (List.filter_sublist _) hAdd
  constructor
  · exact eachBarcode_of_pairwise _ (hFil.imp (fun hab => hab.1))
  · intro s hs
    have hpred := List.of_mem_filter hs
    simpa using hpred

theorem C3_witness :
    eachBarcodeInAtMostOneSample (modifySamplesAndBarcodes [] [("BC01", "s1")]) ∧
    ∀ s ∈ modifySamplesAndBarcodes [] [("BC01", "s1")], s.barcodes ≠ [] :=
  C3_barcode_partition_amended [] [("BC01", "s1")]
    (fun b => by simp [occurrences]) (by simp) (by simp)

/-- Counterexample to C3 as stated: a config whose samples satisfy the
claim's precondition (each barcode in at most one sample) but carry a
duplicated sample name "SampleX"; pushing the single fresh barcode "BC03"
for "SampleX" lands it in both samples, so afterwards "BC03" occurs in the
barcode lists of two samples. -/
theorem C3_counterexample :
    eachBarcodeInAtMostOneSample
        [⟨"SampleX", "", ["BC01"]⟩, ⟨"SampleX", "", ["BC02"]⟩] ∧
    (([("BC03", "SampleX")].map Prod.fst).Nodup) ∧
    ¬ eachBarcodeInAtMostOneSample
        (modifySamplesAndBarcodes
          [⟨"SampleX", "", ["BC01"]⟩, ⟨"SampleX", "", ["BC02"]⟩]
          [("BC03", "SampleX")]) := by
  refine ⟨?_, by simp, ?_⟩
  · intro b
    by_cases h1 : b = "BC01"
    · subst h1; decide
    · by_cases h2 : b = "BC02"
      · subst h2; decide
      · have c1 : (["BC01"] : List String).contains b = false := by
          cases hc : (["BC01"] : List String).contains b
          · rfl
          · exact absurd (List.mem_singleton.mp ((contains_eq_true_iff _ _).mp hc)) h1
        have c2 : (["BC02"] : List String).contains b = false := by
          cases hc : (["BC02"] : List String).contains b
          · rfl
          · exact absurd (List.mem_singleton.mp ((contains_eq_true_iff _ _).mp hc)) h2
        rw [occurrences, List.countP_cons, List.countP_cons, List.countP_nil]
        simp only [c1, c2]
        simp
  · intro hAll
    exact absurd (hAll "BC03") (by decide)

end Rampart
